import Mathlib

/-!
Shallow embedding of the resilient execution core of the octokit-wrapper
repository: the retry/backoff engine (`runWithRetries`), the fluent request
builder (`createRequest`/`buildRequest`), and the Task/TaskChain orchestration
engine (`task.js`, `taskChain.js`).  Asynchronous JS code is modelled as pure
state passing; the fallible operation handed to the retry engine is modelled as
a function from the attempt number to that attempt's outcome; thrown JS errors
become explicit `Except`/error-sum values.
-/

set_option maxHeartbeats 1000000

namespace OctoSpec

/-- Terminal error of the retry engine in `src/unnamed/part_000`
(`runWithRetries`, lines 251-281): either the error chosen by the
stop-predicate (`return { success: false, error }` after `stopRetries`
signalled stop), or the synthesized exhaustion error
`Error:(Request failed after N attempts)`, which carries the attempt count. -/
inductive RWError (ε : Type) where
  | stopped (e : ε)
  | exhausted (attempts : Nat)
  deriving DecidableEq

/-- The `Result` shape `{success: true, data} | {success: false, error}` used
by `runWithRetries`. -/
inductive RWResult (ε α : Type) where
  | success (data : α)
  | failure (error : RWError ε)
  deriving DecidableEq

/-- The retry loop of `runWithRetries` (src/unnamed/part_000 lines 251-281).
`callback i` is the outcome of the i-th invocation of the wrapped operation
(attempts are numbered from 1, as in the JS `let attempt = 1`).
Returns `(result, lastAttempt, delays)`: `lastAttempt` is the attempt number at
the return point (the callback is invoked exactly once per attempt, so it is
also the number of invocations), and `delays` lists, in order, every backoff
delay `interval * 2 ** (attempt - 1)` awaited between attempts.  The JS while
loop falls through (returning `undefined`) only when `maxRetries < 1`; that is
the `none` case. -/
def runWithRetriesAux (callback : Nat → Except ε α) (stopRetries : ε → Bool × ε)
    (maxRetries interval : Nat) (attempt : Nat) (ds : List Nat) :
    Option (RWResult ε α × Nat × List Nat) :=
  if h : maxRetries < attempt then none
  else
    match callback attempt with
    | .ok a => some (.success a, attempt, ds)
    | .error e =>
      let p := stopRetries e
      if p.1 then some (.failure (.stopped p.2), attempt, ds)
      else if maxRetries ≤ attempt then
        some (.failure (.exhausted maxRetries), attempt, ds)
      else
        runWithRetriesAux callback stopRetries maxRetries interval (attempt + 1)
          (ds ++ [interval * 2 ^ (attempt - 1)])
termination_by maxRetries + 1 - attempt
decreasing_by omega

/-- Entry point `runWithRetries(callback, retryConfig)` from
src/unnamed/part_000: the loop starts at `attempt = 1` with no delay before the
first attempt. -/
def runWithRetries (callback : Nat → Except ε α) (stopRetries : ε → Bool × ε)
    (maxRetries interval : Nat) : Option (RWResult ε α × Nat × List Nat) :=
  runWithRetriesAux callback stopRetries maxRetries interval 1 []

/-- The retry loop of the duplicate `runWithRetries` in src/octokit-wrapper.js
(lines 216-241): the same loop shape, but its destructuring
`const (maxRetries, interval) = retryConfig` never reads a `stopRetries`
member, so no stop-predicate is ever consulted — every caught error goes
straight to the `attempt >= maxRetries` check. -/
def runWithRetriesWAux (callback : Nat → Except ε α) (maxRetries interval : Nat)
    (attempt : Nat) (ds : List Nat) : Option (RWResult ε α × Nat × List Nat) :=
  if h : maxRetries < attempt then none
  else
    match callback attempt with
    | .ok a => some (.success a, attempt, ds)
    | .error _ =>
      if maxRetries ≤ attempt then
        some (.failure (.exhausted maxRetries), attempt, ds)
      else
        runWithRetriesWAux callback maxRetries interval (attempt + 1)
          (ds ++ [interval * 2 ^ (attempt - 1)])
termination_by maxRetries + 1 - attempt
decreasing_by omega

/-- Entry point of the octokit-wrapper.js `runWithRetries` (lines 216-241).
The `stopRetries` parameter mirrors the stop-predicate member a caller may
place in the policy object; exactly as in the source, the function discards it
without ever invoking it. -/
def runWithRetriesW (callback : Nat → Except ε α) (stopRetries : ε → Bool × ε)
    (maxRetries interval : Nat) : Option (RWResult ε α × Nat × List Nat) :=
  runWithRetriesWAux callback maxRetries interval 1 []

/-- The list of backoff delays inserted by the retry loop between attempts
`a, a+1, ..., a+d`: the delay awaited after attempt `i` (that is, before
attempt `i + 1`) is `interval * 2 ^ (i - 1)`. -/
def delaysFrom (interval : Nat) : Nat → Nat → List Nat
  | _, 0 => []
  | a, d + 1 => interval * 2 ^ (a - 1) :: delaysFrom interval (a + 1) d

/-- A `Task` instance as far as the chain-structure operations observe it:
its label and an identity tag distinguishing distinct instances that happen to
share a label. -/
structure TaskObj where
  label : String
  tid : Nat
  deriving DecidableEq

/-- JavaScript values as the wrapper's code discriminates them: numbers,
strings, functions (tagged by an opaque identity), booleans, `null`,
`undefined`, plain objects (tagged by identity) and `Task` instances. -/
inductive JSVal where
  | num (n : Int)
  | str (s : String)
  | fnVal (id : Nat)
  | boolV (b : Bool)
  | nullV
  | undef
  | obj (id : Nat)
  | task (t : TaskObj)
  deriving DecidableEq

/-- JavaScript truthiness of a `JSVal`. -/
def jsTruthy : JSVal → Bool
  | .num n => n ≠ 0
  | .str s => s ≠ ""
  | .fnVal _ => true
  | .boolV b => b
  | .nullV => false
  | .undef => false
  | .obj _ => true
  | .task _ => true

/-- The JS `!` operator: produces a boolean. -/
def jsNot (v : JSVal) : JSVal := .boolV (!jsTruthy v)

/-- The JS `instanceof Task` test. -/
def instanceOfTask : JSVal → Bool
  | .task _ => true
  | _ => false

/-- Validator `TaskChain.#validateTask` (src/executors/classes/taskChain.js lines 20-23):
`if (!task instanceof Task) throw ...`.  By JS precedence this parses as
`(!task) instanceof Task`, so the tested value is the boolean `!task`; the
function returns the condition under which the validator throws. -/
def validateTaskThrows (v : JSVal) : Bool := instanceOfTask (jsNot v)

/-- Accessor `task.getName()` as the chain calls it: defined for `Task` instances,
`none` when the receiver has no such method (where JS would raise a
`TypeError`). -/
def getNameJS : JSVal → Option String
  | .task t => some t.label
  | _ => none

/-- Errors raised by the chain-structure operations: the descriptive
`validateTask`/`validateLabel`/`findByLabel` errors, plus the `TypeError`
produced when a method is invoked on a value that lacks it. -/
inductive ChainError where
  | notTask
  | typeError
  | notFound
  | emptyLabel
  | whitespaceLabel
  deriving DecidableEq

/-- Operation `TaskChain.addTask` (taskChain.js lines 52-57).  Returns the outcome
together with the chain's task array after the call (the array is mutated in
place by `push` before `task.setChain(this)` runs, so a `TypeError` from
`setChain` on a non-Task value still leaves the pushed value in the array). -/
def addTask (c : List JSVal) (v : JSVal) : Except ChainError Unit × List JSVal :=
  if validateTaskThrows v then (.error .notTask, c)
  else
    let c' := c ++ [v]
    match v with
    | .task _ => (.ok (), c')
    | _ => (.error .typeError, c')

/-- Operation `TaskChain.removeTask` (taskChain.js lines 59-68): `indexOf` then, when
absent, an error message interpolating `task.getName()` (a `TypeError` for a
non-Task receiver); when present, `splice` removal then `task.setChain(null)`. -/
def removeTask (c : List JSVal) (v : JSVal) : Except ChainError Unit × List JSVal :=
  if validateTaskThrows v then (.error .notTask, c)
  else
    match c.findIdx? (fun x => x = v) with
    | none =>
      match v with
      | .task _ => (.error .notFound, c)
      | _ => (.error .typeError, c)
    | some i =>
      match v with
      | .task _ => (.ok (), c.eraseIdx i)
      | _ => (.error .typeError, c.eraseIdx i)

/-- Whitespace test used by the chain's label validation (`/\s/.test(label)`). -/
def hasWhitespace (s : String) : Bool := s.toList.any Char.isWhitespace

/-- Validator `TaskChain.#validateLabel` (taskChain.js lines 25-30): empty labels and
labels containing whitespace are rejected; returns the error raised, if any. -/
def validateLabelError (label : String) : Option ChainError :=
  if label = "" then some .emptyLabel
  else if hasWhitespace label then some .whitespaceLabel
  else none

/-- Lookup `TaskChain.#findByLabel` (taskChain.js lines 9-15): `findIndex` comparing
`x.getName() === label`; `none` corresponds to the thrown
`label cannot be found` error.  (The claims below only exercise chains whose
members are `Task` instances, where `getName` is defined.) -/
def findByLabel (c : List JSVal) (label : String) : Option Nat :=
  c.findIdx? (fun x => getNameJS x = some label)

/-- Splice `Array.prototype.splice(i, 0, v)`: insert `v` at index `i`. -/
def insertAt (l : List JSVal) (i : Nat) (v : JSVal) : List JSVal :=
  l.take i ++ v :: l.drop i

/-- Operation `TaskChain.insertBeforeTask` (taskChain.js lines 70-77): validate the task
value and the reference label, locate the reference label, splice the new task
in before it, then `task.setChain(this)`.  Outcome plus post-call array. -/
def insertBeforeTask (c : List JSVal) (v : JSVal) (label : String) :
    Except ChainError Unit × List JSVal :=
  if validateTaskThrows v then (.error .notTask, c)
  else
    match validateLabelError label with
    | some err => (.error err, c)
    | none =>
      match findByLabel c label with
      | none => (.error .notFound, c)
      | some i =>
        let c' := insertAt c i v
        match v with
        | .task _ => (.ok (), c')
        | _ => (.error .typeError, c')

/-- Operation `TaskChain.insertAfterTask` (taskChain.js lines 79-84): as
`insertBeforeTask` but splicing at the found index plus one. -/
def insertAfterTask (c : List JSVal) (v : JSVal) (label : String) :
    Except ChainError Unit × List JSVal :=
  if validateTaskThrows v then (.error .notTask, c)
  else
    match validateLabelError label with
    | some err => (.error err, c)
    | none =>
      match findByLabel c label with
      | none => (.error .notFound, c)
      | some i =>
        let c' := insertAt c (i + 1) v
        match v with
        | .task _ => (.ok (), c')
        | _ => (.error .typeError, c')

/-- The request descriptor `state` of `createRequest`
(src/unnamed/part_000 lines 196-200): `{ restQuery, queryObject, propertyName }`. -/
structure ReqState where
  restQuery : JSVal
  queryObject : JSVal
  propertyName : JSVal
  deriving DecidableEq

/-- The `retryConfig` record of the part_000 builder
(lines 190-194): `{ maxRetries, interval, stopRetries }`.  Values are stored as
the JS values handed to the configuration calls. -/
structure RetryCfg where
  maxRetries : JSVal
  interval : JSVal
  stopRetries : JSVal
  deriving DecidableEq

/-- A builder value: the `(state, retryConfig)` pair captured by the closures
`buildRequest` returns. -/
abbrev Builder := ReqState × RetryCfg

/-- Test `typeof v === 'number'` as a predicate. -/
def isNumber : JSVal → Bool
  | .num _ => true
  | _ => false

/-- Test `typeof v === 'function'` as a predicate. -/
def isFunction : JSVal → Bool
  | .fnVal _ => true
  | _ => false

/-- The default stop-predicate closure
`(error) => [error.status === 404, error]` created by `createRequest`; its
identity is fixed per `createRequest` call and is only compared, never
invoked, by the builder itself. -/
def defaultStopRetries : JSVal := .fnVal 0

/-- Factory `createRequest(restQuery, queryObject)` from src/unnamed/part_000 lines
186-241: initial state with `propertyName: null` and retry config
`{ maxRetries: 3, interval: 2000, stopRetries: default 404 breaker }`. -/
def createRequest (restQuery queryObject : JSVal) : Builder :=
  (⟨restQuery, queryObject, .nullV⟩, ⟨.num 3, .num 2000, defaultStopRetries⟩)

/-- Call `withRetries` of the part_000 builder (lines 204-209): type-checks the
argument, then returns a new builder with only `maxRetries` replaced. -/
def withRetries (b : Builder) (v : JSVal) : Except String Builder :=
  if isNumber v then .ok (b.1, { b.2 with maxRetries := v })
  else .error "maxRetries must be a number!"

/-- Call `withInterval` of the part_000 builder (lines 210-215). -/
def withInterval (b : Builder) (v : JSVal) : Except String Builder :=
  if isNumber v then .ok (b.1, { b.2 with interval := v })
  else .error "interval must be a number!"

/-- Call `withRetryBreaker` of the part_000 builder (lines 220-225): requires a
callable argument, then replaces only `stopRetries`. -/
def withRetryBreaker (b : Builder) (v : JSVal) : Except String Builder :=
  if isFunction v then .ok (b.1, { b.2 with stopRetries := v })
  else .error "callback must be a function!"

/-- Call `withProperty` of the part_000 builder (line 235): no validation; returns a
new builder with only the descriptor's `propertyName` replaced. -/
def withProperty (b : Builder) (v : JSVal) : Builder :=
  ({ b.1 with propertyName := v }, b.2)

/-- The `retryConfig` of the duplicate builder in src/octokit-wrapper.js
(lines 185-188): `{ maxRetries, interval }`, no stop predicate. -/
structure RetryCfgW where
  maxRetries : JSVal
  interval : JSVal
  deriving DecidableEq

/-- A builder value of the octokit-wrapper.js variant. -/
abbrev BuilderW := ReqState × RetryCfgW

/-- Factory `createRequest` from src/octokit-wrapper.js lines 181-206. -/
def createRequestW (restQuery queryObject : JSVal) : BuilderW :=
  (⟨restQuery, queryObject, .nullV⟩, ⟨.num 3, .num 2000⟩)

/-- Call `withRetries` of the octokit-wrapper.js builder (line 198):
`maxRetries => buildRequest(state, { ...retryConfig, maxRetries })` — no
validation of the argument whatsoever; the call always succeeds and stores the
value as given. -/
def withRetriesW (b : BuilderW) (v : JSVal) : BuilderW :=
  (b.1, { b.2 with maxRetries := v })

/-- Call `withInterval` of the octokit-wrapper.js builder (line 199): likewise
unvalidated. -/
def withIntervalW (b : BuilderW) (v : JSVal) : BuilderW :=
  (b.1, { b.2 with interval := v })

/-- The `context` object built by `TaskChain.run`
(taskChain.js line 237): `{ inputs, steps: {} }`, with `steps` accumulating
one `label ↦ result` entry per executed task in execution order. -/
structure Ctx (V : Type) where
  inputs : List (String × V)
  steps : List (String × V)
  deriving DecidableEq

/-- A chain member as `TaskChain.run` observes it: its label and the observable
behaviour of `task.run(context)` — the recorded result (the second component of
the returned `[ok, result]` pair) together with the net effect of the task's
lifecycle signalling on the chain's `#stopChain` flag. -/
structure CTask (V : Type) where
  label : String
  run : Ctx V → V × Bool

/-- The `for (const task of this.#chain)` loop of `TaskChain.run`
(taskChain.js lines 240-247): run the task, record its result into
`context.steps` under the task's label, and only then check `#stopChain`,
returning immediately when it is set.  Instrumented with the number of tasks
executed and whether the loop exited through the abort check. -/
def chainRunAux (ts : List (CTask V)) (ctx : Ctx V) : Ctx V × Nat × Bool :=
  match ts with
  | [] => (ctx, 0, false)
  | t :: rest =>
    let r := t.run ctx
    let ctx' : Ctx V := { ctx with steps := ctx.steps ++ [(t.label, r.1)] }
    if r.2 then (ctx', 1, true)
    else
      let res := chainRunAux rest ctx'
      (res.1, res.2.1 + 1, res.2.2)

/-- Driver `TaskChain.run(inputs)` (taskChain.js lines 236-248): reset `#stopChain`
to false, build a fresh context `{ inputs, steps: {} }`, then drive the loop. -/
def chainRun (ts : List (CTask V)) (inputs : List (String × V)) : Ctx V × Nat × Bool :=
  chainRunAux ts ⟨inputs, []⟩

/-- The observer-resolution of `Task.#dispatchEvent` (task.js lines 69-84):
listeners are notified in registration order; each may call the provided
`breakChain(value)`, which is a no-op when `value` equals the current
`stopChain` and otherwise stops propagation (skipping the remaining listeners)
and replaces `stopChain` with `value`.  An observer is modelled by the value it
passes to `breakChain`, or `none` when it does not call it.  Returns the final
`stopChain` value. -/
def resolveStop : List (Option Bool) → Bool → Bool
  | [], s => s
  | none :: rest, s => resolveStop rest s
  | some v :: rest, s => if v = s then resolveStop rest s else v

/-- JS error values observable inside `Task.run` (task.js lines 105-150): an
error thrown by the wrapped action, the `TypeError` raised by calling
`breakChain` on a null `#chain`, or the synthesized
`Error:(Request failed after N attempts)`. -/
inductive JSError (ε : Type) where
  | user (e : ε)
  | typeError
  | exhausted (attempts : Nat)
  deriving DecidableEq

/-- The tail of `Task.#dispatchEvent` for a `taskError` signal (default
`stopChain = true`): after the observers run, if `stopChain` is still set the
code calls `this.#chain.breakChain()` — a `TypeError` (modelled `.error ()`)
when the back-reference is `null`, otherwise it sets the chain's abort flag.
On the non-throwing paths `Task.run` returns the `[false, error]` pair
(modelled `(false, Sum.inr error)`) together with the chain flag state after
the dispatch. -/
def taskErrorReturn (errObs : List (Option Bool)) (chain : Option Bool) (er : JSError ε)
    (α : Type) : Except Unit ((Bool × (α ⊕ JSError ε)) × Option Bool) :=
  if resolveStop errObs true then
    match chain with
    | none => .error ()
    | some _ => .ok ((false, .inr er), some true)
  else .ok ((false, .inr er), chain)

/-- The retry loop of `Task.run` (task.js lines 105-150).  `action i` is the
outcome of the i-th invocation of the wrapped action.  On success the
`taskSuccess` signal is dispatched *inside* the `try` block with default
`stopChain = false`; if the observers flip it to true on a detached task the
resulting `TypeError` from `null.breakChain` is caught by the surrounding
`catch` and fed to the stop-predicate like any other failure.  On a caught
error the stop-predicate decides between terminal failure, exhaustion, and an
exponential-backoff retry.  Returns `(outcome, lastAttempt, delays)` where the
outcome is either the thrown `TypeError` escaping `run` (`.error ()`) or
`.ok ((ok, resultOrError), chainFlagAfter)`; the JS loop falls through with
`undefined` only when `retries < 1` (the `none` case). -/
def taskRunAux (action : Nat → Except ε α) (stopRetries : JSError ε → Bool × JSError ε)
    (retries interval : Nat) (succObs errObs : List (Option Bool))
    (chain : Option Bool) (attempt : Nat) (ds : List Nat) :
    Option (Except Unit ((Bool × (α ⊕ JSError ε)) × Option Bool) × Nat × List Nat) :=
  if h : retries < attempt then none
  else
    let tryOutcome : Except (JSError ε) ((Bool × (α ⊕ JSError ε)) × Option Bool) :=
      match action attempt with
      | .ok a =>
        if resolveStop succObs false then
          match chain with
          | none => .error .typeError
          | some _ => .ok ((true, .inl a), some true)
        else .ok ((true, .inl a), chain)
      | .error e => .error (.user e)
    match tryOutcome with
    | .ok ret => some (.ok ret, attempt, ds)
    | .error caught =>
      let p := stopRetries caught
      if p.1 then some (taskErrorReturn errObs chain p.2 α, attempt, ds)
      else if retries ≤ attempt then
        some (taskErrorReturn errObs chain (.exhausted retries) α, attempt, ds)
      else
        taskRunAux action stopRetries retries interval succObs errObs chain (attempt + 1)
          (ds ++ [interval * 2 ^ (attempt - 1)])
termination_by retries + 1 - attempt
decreasing_by omega

/-- Entry point `Task.run(context)` (task.js lines 105-150): the loop starts at
`attempt = 1`. -/
def taskRun (action : Nat → Except ε α) (stopRetries : JSError ε → Bool × JSError ε)
    (retries interval : Nat) (succObs errObs : List (Option Bool)) (chain : Option Bool) :
    Option (Except Unit ((Bool × (α ⊕ JSError ε)) × Option Bool) × Nat × List Nat) :=
  taskRunAux action stopRetries retries interval succObs errObs chain 1 []

end OctoSpec

namespace OctoSpec

theorem delaysFrom_length (interval : Nat) : ∀ d a, (delaysFrom interval a d).length = d := by
  intro d
  induction d with
  | zero => intro a; rfl
  | succ d ih => intro a; simp [delaysFrom, ih]

theorem delaysFrom_get (interval : Nat) :
    ∀ d a j (h : j < (delaysFrom interval a d).length),
      (delaysFrom interval a d).get ⟨j, h⟩ = interval * 2 ^ (a + j - 1) := by
  intro d
  induction d with
  | zero => intro a j h; simp [delaysFrom_length] at h
  | succ d ih =>
    intro a j h
    cases j with
    | zero => simp [delaysFrom]
    | succ j =>
      have hj : j < (delaysFrom interval (a + 1) d).length := by
        simp [delaysFrom_length] at h ⊢; omega
      have := ih (a + 1) j hj
      simpa [delaysFrom, Nat.add_assoc, Nat.add_comm 1 j] using this

example : runWithRetries (fun _ => (Except.error 0 : Except Nat Nat)) (fun e => (false, e)) 3 2000 =
    some (.failure (.exhausted 3), 3, [2000, 4000]) := by
  simp [runWithRetries, runWithRetriesAux]

example : runWithRetries (fun _ => (Except.ok 7 : Except Nat Nat)) (fun e => (false, e)) 3 10 =
    some (.success 7, 1, []) := by
  simp [runWithRetries, runWithRetriesAux]

example : runWithRetries (fun i => (Except.error i : Except Nat Nat))
    (fun e => (decide (e = 2), e + 100)) 5 10 = some (.failure (.stopped 102), 2, [10]) := by
  simp [runWithRetries, runWithRetriesAux]

theorem runWithRetriesAux_stop (cb : Nat → Except ε α) (stop : ε → Bool × ε)
    (n interval : Nat) (e : Nat → ε) (k : Nat) (hkn : k ≤ n)
    (hfail : ∀ i, 1 ≤ i → i ≤ k → cb i = .error (e i))
    (hcont : ∀ i, 1 ≤ i → i < k → (stop (e i)).1 = false)
    (hstop : (stop (e k)).1 = true) :
    ∀ d a ds, a + d = k → 1 ≤ a →
      runWithRetriesAux cb stop n interval a ds =
        some (.failure (.stopped (stop (e k)).2), k, ds ++ delaysFrom interval a d) := by
  intro d
  induction d with
  | zero =>
    intro a ds ha h1
    have hak : a = k := by omega
    subst hak
    rw [runWithRetriesAux]
    rw [dif_neg (by omega), hfail a h1 (le_refl a)]
    simp [hstop, delaysFrom]
  | succ d ih =>
    intro a ds ha h1
    have hak : a < k := by omega
    rw [runWithRetriesAux]
    rw [dif_neg (by omega), hfail a h1 (by omega)]
    simp only [hcont a h1 hak, if_false, Bool.false_eq_true]
    rw [if_neg (by omega)]
    rw [ih (a + 1) (ds ++ [interval * 2 ^ (a - 1)]) (by omega) (by omega)]
    simp [delaysFrom]

theorem runWithRetriesAux_exhaust (cb : Nat → Except ε α) (stop : ε → Bool × ε)
    (n interval : Nat) (e : Nat → ε)
    (hfail : ∀ i, 1 ≤ i → i ≤ n → cb i = .error (e i))
    (hcont : ∀ i, 1 ≤ i → i ≤ n → (stop (e i)).1 = false) :
    ∀ d a ds, a + d = n → 1 ≤ a →
      runWithRetriesAux cb stop n interval a ds =
        some (.failure (.exhausted n), n, ds ++ delaysFrom interval a d) := by
  intro d
  induction d with
  | zero =>
    intro a ds ha h1
    have hak : a = n := by omega
    subst hak
    rw [runWithRetriesAux]
    rw [dif_neg (by omega), hfail a h1 (le_refl a)]
    simp [hcont a h1 (le_refl a), delaysFrom]
  | succ d ih =>
    intro a ds ha h1
    have hak : a < n := by omega
    rw [runWithRetriesAux]
    rw [dif_neg (by omega), hfail a h1 (by omega)]
    simp only [hcont a h1 (by omega), if_false, Bool.false_eq_true]
    rw [if_neg (by omega)]
    rw [ih (a + 1) (ds ++ [interval * 2 ^ (a - 1)]) (by omega) (by omega)]
    simp [delaysFrom]

theorem runWithRetriesAux_charac (cb : Nat → Except ε α) (stop : ε → Bool × ε)
    (n interval : Nat) :
    ∀ fuel a ds r cnt ds', n + 1 - a ≤ fuel → 1 ≤ a →
      runWithRetriesAux cb stop n interval a ds = some (r, cnt, ds') →
      a ≤ cnt ∧ cnt ≤ n ∧ ds' = ds ++ delaysFrom interval a (cnt - a) := by
  intro fuel
  induction fuel with
  | zero =>
    intro a ds r cnt ds' hfu h1 h
    rw [runWithRetriesAux, dif_pos (by omega)] at h
    exact absurd h (by simp)
  | succ fuel ih =>
    intro a ds r cnt ds' hfu h1 h
    rw [runWithRetriesAux] at h
    by_cases hna : n < a
    · rw [dif_pos hna] at h
      exact absurd h (by simp)
    · rw [dif_neg hna] at h
      cases hcb : cb a with
      | ok v =>
        rw [hcb] at h
        simp only [Option.some.injEq, Prod.mk.injEq] at h
        obtain ⟨_, hcnt, hds⟩ := h
        subst hcnt
        refine ⟨le_refl a, by omega, ?_⟩
        simp [hds.symm, delaysFrom]
      | error e =>
        rw [hcb] at h
        simp only at h
        by_cases hp : (stop e).1
        · rw [if_pos hp] at h
          simp only [Option.some.injEq, Prod.mk.injEq] at h
          obtain ⟨_, hcnt, hds⟩ := h
          subst hcnt
          refine ⟨le_refl a, by omega, ?_⟩
          simp [hds.symm, delaysFrom]
        · rw [if_neg hp] at h
          by_cases hend : n ≤ a
          · rw [if_pos hend] at h
            simp only [Option.some.injEq, Prod.mk.injEq] at h
            obtain ⟨_, hcnt, hds⟩ := h
            subst hcnt
            refine ⟨le_refl a, by omega, ?_⟩
            simp [hds.symm, delaysFrom]
          · rw [if_neg hend] at h
            obtain ⟨ha1, ha2, ha3⟩ :=
              ih (a + 1) (ds ++ [interval * 2 ^ (a - 1)]) r cnt ds' (by omega) (by omega) h
            refine ⟨by omega, ha2, ?_⟩
            rw [ha3]
            have hsub : cnt - a = (cnt - (a + 1)) + 1 := by omega
            rw [hsub]
            simp [delaysFrom]

theorem runWithRetriesAux_total (cb : Nat → Except ε α) (stop : ε → Bool × ε)
    (n interval : Nat) :
    ∀ fuel a ds, n + 1 - a ≤ fuel → 1 ≤ a → a ≤ n →
      ∃ r cnt ds', runWithRetriesAux cb stop n interval a ds = some (r, cnt, ds') := by
  intro fuel
  induction fuel with
  | zero => intro a ds hfu h1 han; omega
  | succ fuel ih =>
    intro a ds hfu h1 han
    rw [runWithRetriesAux, dif_neg (by omega)]
    cases hcb : cb a with
    | ok v => exact ⟨_, _, _, rfl⟩
    | error e =>
      simp only
      by_cases hp : (stop e).1
      · rw [if_pos hp]; exact ⟨_, _, _, rfl⟩
      · rw [if_neg hp]
        by_cases hend : n ≤ a
        · rw [if_pos hend]; exact ⟨_, _, _, rfl⟩
        · rw [if_neg hend]
          exact ih (a + 1) (ds ++ [interval * 2 ^ (a - 1)]) (by omega) (by omega) (by omega)

theorem runWithRetriesWAux_exhaust (cb : Nat → Except ε α) (n interval : Nat) (e : Nat → ε)
    (hfail : ∀ i, 1 ≤ i → i ≤ n → cb i = .error (e i)) :
    ∀ d a ds, a + d = n → 1 ≤ a →
      runWithRetriesWAux cb n interval a ds =
        some (.failure (.exhausted n), n, ds ++ delaysFrom interval a d) := by
  intro d
  induction d with
  | zero =>
    intro a ds ha h1
    have hak : a = n := by omega
    subst hak
    rw [runWithRetriesWAux]
    rw [dif_neg (by omega), hfail a h1 (le_refl a)]
    simp [delaysFrom]
  | succ d ih =>
    intro a ds ha h1
    rw [runWithRetriesWAux]
    rw [dif_neg (by omega), hfail a h1 (by omega)]
    simp only
    rw [if_neg (by omega)]
    rw [ih (a + 1) (ds ++ [interval * 2 ^ (a - 1)]) (by omega) (by omega)]
    simp [delaysFrom]

theorem runWithRetriesAux_success (cb : Nat → Except ε α) (stop : ε → Bool × ε)
    (n interval : Nat) (e : Nat → ε) (v : α) (k : Nat) (hkn : k ≤ n)
    (hfail : ∀ i, 1 ≤ i → i < k → cb i = .error (e i))
    (hcont : ∀ i, 1 ≤ i → i < k → (stop (e i)).1 = false)
    (hsucc : cb k = .ok v) :
    ∀ d a ds, a + d = k → 1 ≤ a →
      runWithRetriesAux cb stop n interval a ds =
        some (.success v, k, ds ++ delaysFrom interval a d) := by
  intro d
  induction d with
  | zero =>
    intro a ds ha h1
    have hak : a = k := by omega
    subst hak
    rw [runWithRetriesAux]
    rw [dif_neg (by omega), hsucc]
    simp [delaysFrom]
  | succ d ih =>
    intro a ds ha h1
    have hak : a < k := by omega
    rw [runWithRetriesAux]
    rw [dif_neg (by omega), hfail a h1 hak]
    simp only [hcont a h1 hak, if_false, Bool.false_eq_true]
    rw [if_neg (by omega)]
    rw [ih (a + 1) (ds ++ [interval * 2 ^ (a - 1)]) (by omega) (by omega)]
    simp [delaysFrom]

/-- C4 counterexample: the retry engine in src/octokit-wrapper.js (lines
216-241), handed a policy whose stop-predicate signals stop on the very first
error, still performs all three attempts (with both backoff delays) and
returns the synthesized exhaustion error — not one invocation and the
predicate's chosen error as the claim requires; the part_000 engine, by
contrast, stops at attempt 1 with the predicate's error. -/
theorem wrapper_runWithRetries_ignores_stop_cex :
    runWithRetriesW (fun i => (Except.error i : Except Nat Nat))
        (fun e => (true, e + 100)) 3 2000 =
        some (.failure (.exhausted 3), 3, [2000, 4000]) ∧
      runWithRetries (fun i => (Except.error i : Except Nat Nat))
        (fun e => (true, e + 100)) 3 2000 =
        some (.failure (.stopped 101), 1, []) := by
  constructor
  · simp [runWithRetriesW, runWithRetriesWAux]
  · simp [runWithRetries, runWithRetriesAux]

/-- C4 (amended): for the part_000 retry engine, a policy with
`maxRetries = n ≥ 1` and a stop-predicate that signals stop on attempt
`k ≤ n` — the operation fails on attempts 1 through `k`, the predicate
declines on the first `k - 1` errors and stops on the k-th — yields exactly
`k` invocations (the returned attempt counter is `k`, never `k + 1`) and an
immediate `Failure` wrapping exactly the predicate's chosen error, regardless
of remaining budget; the duplicate engine in src/octokit-wrapper.js never
consults the policy's stop-predicate — its result is identical under any two
predicates — so under the same stop-signalling predicate an always-failing
operation is still attempted all `n` times and the synthesized exhaustion
error is returned instead of the predicate's error. -/
theorem retry_engines_stop_predicate_split
    (cb : Nat → Except ε α) (stop : ε → Bool × ε) (n interval : Nat) (e : Nat → ε) (k : Nat)
    (hk1 : 1 ≤ k) (hkn : k ≤ n)
    (hfail : ∀ i, 1 ≤ i → i ≤ k → cb i = .error (e i))
    (hcont : ∀ i, 1 ≤ i → i < k → (stop (e i)).1 = false)
    (hstop : (stop (e k)).1 = true)
    (cbW : Nat → Except ε α) (eW : Nat → ε)
    (hfailW : ∀ i, 1 ≤ i → i ≤ n → cbW i = .error (eW i)) :
    runWithRetries cb stop n interval =
        some (.failure (.stopped (stop (e k)).2), k, delaysFrom interval 1 (k - 1)) ∧
      (∀ stop2 : ε → Bool × ε,
        runWithRetriesW cbW stop n interval = runWithRetriesW cbW stop2 n interval) ∧
      runWithRetriesW cbW stop n interval =
        some (.failure (.exhausted n), n, delaysFrom interval 1 (n - 1)) := by
  refine ⟨?_, fun stop2 => rfl, ?_⟩
  · have h := runWithRetriesAux_stop cb stop n interval e k hkn hfail hcont hstop
      (k - 1) 1 [] (by omega) (le_refl 1)
    simpa [runWithRetries] using h
  · have h := runWithRetriesWAux_exhaust cbW n interval eW hfailW
      (n - 1) 1 [] (by omega) (le_refl 1)
    simpa [runWithRetriesW] using h

theorem retry_engines_stop_split_witness :
    (1 : Nat) ≤ 2 ∧ (2 : Nat) ≤ 5 ∧
      (runWithRetries (fun i => (Except.error i : Except Nat Nat))
          (fun e => (decide (e = 2), e + 100)) 5 10 =
          some (.failure (.stopped 102), 2, delaysFrom 10 1 1) ∧
        (∀ stop2 : Nat → Bool × Nat,
          runWithRetriesW (fun i => (Except.error i : Except Nat Nat))
              (fun e => (decide (e = 2), e + 100)) 5 10 =
            runWithRetriesW (fun i => (Except.error i : Except Nat Nat)) stop2 5 10) ∧
        runWithRetriesW (fun i => (Except.error i : Except Nat Nat))
            (fun e => (decide (e = 2), e + 100)) 5 10 =
          some (.failure (.exhausted 5), 5, delaysFrom 10 1 4)) :=
  ⟨by decide, by decide,
    retry_engines_stop_predicate_split (fun i => (Except.error i : Except Nat Nat))
      (fun e => (decide (e = 2), e + 100)) 5 10 (fun i => i) 2 (by decide) (by decide)
      (fun i _ _ => rfl) (fun i h1 h2 => by interval_cases i <;> decide) (by decide)
      (fun i => (Except.error i : Except Nat Nat)) (fun i => i) (fun i _ _ => rfl)⟩

/-- C5: for every `maxRetries = n ≥ 1`, running the retry engine on an
always-failing operation with a stop-predicate that never signals stop invokes
the operation exactly `n` times and returns a `Failure` whose synthesized
error carries the attempt count `n`; and whenever the first successful attempt
is attempt `k ≤ n` (the earlier `k - 1` attempts failed with the predicate
declining to stop), the engine returns `Success` immediately at attempt `k`
with no further attempts — exactly `k` invocations and only the `k - 1`
backoff delays already performed. -/
theorem runWithRetries_exhausts_and_immediate_success
    (cb cb2 : Nat → Except ε α) (stop stop2 : ε → Bool × ε) (n interval : Nat)
    (e e2 : Nat → ε) (a : α) (k : Nat) (hn : 1 ≤ n) (hk1 : 1 ≤ k) (hkn : k ≤ n)
    (hfail : ∀ i, 1 ≤ i → i ≤ n → cb i = .error (e i))
    (hcont : ∀ i, 1 ≤ i → i ≤ n → (stop (e i)).1 = false)
    (hfail2 : ∀ i, 1 ≤ i → i < k → cb2 i = .error (e2 i))
    (hcont2 : ∀ i, 1 ≤ i → i < k → (stop2 (e2 i)).1 = false)
    (hsucc : cb2 k = .ok a) :
    runWithRetries cb stop n interval =
        some (.failure (.exhausted n), n, delaysFrom interval 1 (n - 1)) ∧
      runWithRetries cb2 stop2 n interval =
        some (.success a, k, delaysFrom interval 1 (k - 1)) := by
  constructor
  · have h := runWithRetriesAux_exhaust cb stop n interval e hfail hcont
      (n - 1) 1 [] (by omega) (le_refl 1)
    simpa [runWithRetries] using h
  · have h := runWithRetriesAux_success cb2 stop2 n interval e2 a k hkn hfail2 hcont2 hsucc
      (k - 1) 1 [] (by omega) (le_refl 1)
    simpa [runWithRetries] using h

theorem runWithRetries_exhausts_witness :
    (1 : Nat) ≤ 3 ∧ (1 : Nat) ≤ 2 ∧ (2 : Nat) ≤ 3 ∧
      (runWithRetries (fun _ => (Except.error 0 : Except Nat Nat)) (fun e => (false, e)) 3 2000 =
          some (.failure (.exhausted 3), 3, delaysFrom 2000 1 2) ∧
        runWithRetries (fun i => if i = 1 then (Except.error 0 : Except Nat Nat) else .ok 7)
            (fun e => (false, e)) 3 2000 =
          some (.success 7, 2, delaysFrom 2000 1 1)) :=
  ⟨by decide, by decide, by decide,
    runWithRetries_exhausts_and_immediate_success
      (fun _ => (Except.error 0 : Except Nat Nat))
      (fun i => if i = 1 then (Except.error 0 : Except Nat Nat) else .ok 7)
      (fun e => (false, e)) (fun e => (false, e)) 3 2000 (fun _ => 0) (fun _ => 0) 7 2
      (by decide) (by decide) (by decide)
      (fun i _ _ => rfl) (fun i _ _ => rfl)
      (fun i h1 h2 => by interval_cases i <;> rfl) (fun i _ _ => rfl) rfl⟩

/-- C6: for every retry execution with `maxRetries = n ≥ 1`, the engine
returns; its delay list contains exactly one entry per performed retry
transition (`cnt - 1` of them, so no delay precedes the first attempt), the
j-th recorded delay — the one inserted before attempt `i + 1` with
`i = j + 1 ≥ 1` — equals `interval * 2 ^ (i - 1) = interval * 2 ^ j`, and a
policy with `maxRetries = 1` performs exactly one attempt with an empty delay
list. -/
theorem runWithRetries_backoff_delays (cb : Nat → Except ε α) (stop : ε → Bool × ε)
    (n interval : Nat) (hn : 1 ≤ n) :
    ∃ r cnt ds, runWithRetries cb stop n interval = some (r, cnt, ds) ∧
      1 ≤ cnt ∧ cnt ≤ n ∧ ds.length = cnt - 1 ∧
      (∀ j (hj : j < ds.length), ds.get ⟨j, hj⟩ = interval * 2 ^ j) ∧
      (n = 1 → cnt = 1 ∧ ds = []) := by
  obtain ⟨r, cnt, ds, h⟩ := runWithRetriesAux_total cb stop n interval (n + 1) 1 []
    (by omega) (le_refl 1) hn
  obtain ⟨h1, h2, h3⟩ := runWithRetriesAux_charac cb stop n interval (n + 1) 1 [] r cnt ds
    (by omega) (le_refl 1) h
  simp only [List.nil_append] at h3
  refine ⟨r, cnt, ds, h, h1, h2, ?_, ?_, ?_⟩
  · rw [h3, delaysFrom_length]
  · subst h3
    intro j hj
    have := delaysFrom_get interval (cnt - 1) 1 j hj
    have hfix : 1 + j - 1 = j := by omega
    rw [hfix] at this
    exact this
  · intro h1eq
    subst h1eq
    have hc : cnt = 1 := by omega
    subst hc
    refine ⟨rfl, ?_⟩
    rw [h3]
    rfl

theorem runWithRetries_backoff_delays_witness :
    (1 : Nat) ≤ 4 ∧
      ∃ r cnt ds,
        runWithRetries (fun _ => (Except.error 0 : Except Nat Nat)) (fun e => (false, e)) 4 500 =
            some (r, cnt, ds) ∧
          1 ≤ cnt ∧ cnt ≤ 4 ∧ ds.length = cnt - 1 ∧
          (∀ j (hj : j < ds.length), ds.get ⟨j, hj⟩ = 500 * 2 ^ j) ∧
          (4 = 1 → cnt = 1 ∧ ds = []) :=
  ⟨by decide, runWithRetries_backoff_delays
    (fun _ => (Except.error 0 : Except Nat Nat)) (fun e => (false, e)) 4 500 (by decide)⟩

/-- C7: every configuration call on the part_000 builder returns a new builder
value that agrees with the original on every component except the one the call
sets; in particular two different configurations derived from one builder each
observe only their own change, so the original can be reused as a template. -/
theorem builder_with_calls_return_new_value_frame (b : Builder) (nv iv pv fv : JSVal)
    (hn : isNumber nv = true) (hi : isNumber iv = true) (hf : isFunction fv = true) :
    withRetries b nv = .ok (b.1, { b.2 with maxRetries := nv }) ∧
      withInterval b iv = .ok (b.1, { b.2 with interval := iv }) ∧
      withRetryBreaker b fv = .ok (b.1, { b.2 with stopRetries := fv }) ∧
      withProperty b pv = ({ b.1 with propertyName := pv }, b.2) ∧
      (∀ b1 b2, withRetries b nv = .ok b1 → withInterval b iv = .ok b2 →
        b1.1 = b.1 ∧ b2.1 = b.1 ∧
          b1.2.maxRetries = nv ∧ b1.2.interval = b.2.interval ∧
          b1.2.stopRetries = b.2.stopRetries ∧
          b2.2.interval = iv ∧ b2.2.maxRetries = b.2.maxRetries ∧
          b2.2.stopRetries = b.2.stopRetries) := by
  refine ⟨by simp [withRetries, hn], by simp [withInterval, hi],
    by simp [withRetryBreaker, hf], rfl, ?_⟩
  intro b1 b2 h1 h2
  rw [withRetries, if_pos hn] at h1
  rw [withInterval, if_pos hi] at h2
  cases h1
  cases h2
  simp

theorem builder_with_calls_frame_witness :
    isNumber (.num 5) = true ∧ isNumber (.num 100) = true ∧ isFunction (.fnVal 3) = true ∧
      (withRetries (createRequest (.str "GET /x") (.obj 1)) (.num 5) =
          .ok ((createRequest (.str "GET /x") (.obj 1)).1,
            { (createRequest (.str "GET /x") (.obj 1)).2 with maxRetries := .num 5 }) ∧
        withInterval (createRequest (.str "GET /x") (.obj 1)) (.num 100) =
          .ok ((createRequest (.str "GET /x") (.obj 1)).1,
            { (createRequest (.str "GET /x") (.obj 1)).2 with interval := .num 100 }) ∧
        withRetryBreaker (createRequest (.str "GET /x") (.obj 1)) (.fnVal 3) =
          .ok ((createRequest (.str "GET /x") (.obj 1)).1,
            { (createRequest (.str "GET /x") (.obj 1)).2 with stopRetries := .fnVal 3 }) ∧
        withProperty (createRequest (.str "GET /x") (.obj 1)) (.str "data") =
          ({ (createRequest (.str "GET /x") (.obj 1)).1 with propertyName := .str "data" },
            (createRequest (.str "GET /x") (.obj 1)).2) ∧
        (∀ b1 b2, withRetries (createRequest (.str "GET /x") (.obj 1)) (.num 5) = .ok b1 →
          withInterval (createRequest (.str "GET /x") (.obj 1)) (.num 100) = .ok b2 →
          b1.1 = (createRequest (.str "GET /x") (.obj 1)).1 ∧
            b2.1 = (createRequest (.str "GET /x") (.obj 1)).1 ∧
            b1.2.maxRetries = .num 5 ∧
            b1.2.interval = (createRequest (.str "GET /x") (.obj 1)).2.interval ∧
            b1.2.stopRetries = (createRequest (.str "GET /x") (.obj 1)).2.stopRetries ∧
            b2.2.interval = .num 100 ∧
            b2.2.maxRetries = (createRequest (.str "GET /x") (.obj 1)).2.maxRetries ∧
            b2.2.stopRetries = (createRequest (.str "GET /x") (.obj 1)).2.stopRetries)) :=
  ⟨by decide, by decide, by decide,
    builder_with_calls_return_new_value_frame (createRequest (.str "GET /x") (.obj 1))
      (.num 5) (.num 100) (.str "data") (.fnVal 3) (by decide) (by decide) (by decide)⟩

/-- C8 counterexample: the duplicate builder in src/octokit-wrapper.js performs
no validation at configuration time — `withRetries` on a non-numeric value
does not raise; it returns a builder that silently stores the malformed value,
refuting that every configuration call of every request builder raises
synchronously on malformed input. -/
theorem wrapper_withRetries_accepts_malformed_cex :
    withRetriesW (createRequestW (.str "GET /x") (.obj 1)) (.str "oops") =
        (⟨.str "GET /x", .obj 1, .nullV⟩, ⟨.str "oops", .num 2000⟩) ∧
      withIntervalW (createRequestW (.str "GET /x") (.obj 1)) (.boolV true) =
        (⟨.str "GET /x", .obj 1, .nullV⟩, ⟨.num 3, .boolV true⟩) := by decide

/-- C8 (amended): the part_000 builder does validate synchronously at
configuration time — `withRetries`/`withInterval` raise exactly on non-numeric
arguments and `withRetryBreaker` raises exactly on non-callable arguments,
each before any attempt of the described operation; the duplicate builder in
octokit-wrapper.js performs no such validation (see the counterexample). -/
theorem partZero_builder_validates_at_config_time (b : Builder) (v : JSVal) :
    (withRetries b v = .error "maxRetries must be a number!" ↔ isNumber v = false) ∧
      (withInterval b v = .error "interval must be a number!" ↔ isNumber v = false) ∧
      (withRetryBreaker b v = .error "callback must be a function!" ↔ isFunction v = false) := by
  refine ⟨?_, ?_, ?_⟩ <;> cases hv : v <;>
    simp [withRetries, withInterval, withRetryBreaker, isNumber, isFunction]

theorem partZero_builder_validates_witness :
    (withRetries (createRequest (.str "q") (.obj 1)) (.str "oops") =
        .error "maxRetries must be a number!" ↔ isNumber (.str "oops") = false) ∧
      (withInterval (createRequest (.str "q") (.obj 1)) (.str "oops") =
        .error "interval must be a number!" ↔ isNumber (.str "oops") = false) ∧
      (withRetryBreaker (createRequest (.str "q") (.obj 1)) (.str "oops") =
        .error "callback must be a function!" ↔ isFunction (.str "oops") = false) :=
  partZero_builder_validates_at_config_time (createRequest (.str "q") (.obj 1)) (.str "oops")

/-- C1 counterexample: adding (or inserting) a Task whose label duplicates an
existing chain member's label does not fail: `addTask`, `insertBeforeTask` and
`insertAfterTask` all succeed and mutate the chain, leaving two members with
the same label, refuting the claimed uniqueness enforcement. -/
theorem taskChain_duplicate_label_insert_succeeds_cex :
    addTask [.task ⟨"a", 1⟩] (.task ⟨"a", 2⟩) =
        (.ok (), [.task ⟨"a", 1⟩, .task ⟨"a", 2⟩]) ∧
      insertBeforeTask [.task ⟨"a", 1⟩] (.task ⟨"a", 2⟩) "a" =
        (.ok (), [.task ⟨"a", 2⟩, .task ⟨"a", 1⟩]) ∧
      insertAfterTask [.task ⟨"a", 1⟩] (.task ⟨"a", 2⟩) "a" =
        (.ok (), [.task ⟨"a", 1⟩, .task ⟨"a", 2⟩]) := by
  refine ⟨rfl, rfl, rfl⟩

/-- C1 (amended): the chain performs no duplicate-label check at all —
`addTask` on any Task instance always succeeds and appends it, and
`insertBeforeTask`/`insertAfterTask` on any Task instance succeed and splice
it in whenever the (well-formed) reference label exists, in every case
regardless of whether the new task's label duplicates an existing member's;
label uniqueness is not an enforced invariant of `TaskChain`. -/
theorem taskChain_insert_no_label_uniqueness_check (c : List JSVal) (t : TaskObj) :
    addTask c (.task t) = (.ok (), c ++ [.task t]) ∧
      (∀ lbl i, validateLabelError lbl = none → findByLabel c lbl = some i →
        insertBeforeTask c (.task t) lbl = (.ok (), insertAt c i (.task t)) ∧
          insertAfterTask c (.task t) lbl = (.ok (), insertAt c (i + 1) (.task t))) := by
  refine ⟨?_, ?_⟩
  · simp [addTask, validateTaskThrows, jsNot, jsTruthy, instanceOfTask]
  · intro lbl i hlbl hfind
    constructor
    · simp [insertBeforeTask, validateTaskThrows, jsNot, jsTruthy, instanceOfTask, hlbl, hfind]
    · simp [insertAfterTask, validateTaskThrows, jsNot, jsTruthy, instanceOfTask, hlbl, hfind]

theorem taskChain_insert_no_uniqueness_witness :
    validateLabelError "a" = none ∧ findByLabel [.task ⟨"a", 1⟩] "a" = some 0 ∧
      (addTask [.task ⟨"a", 1⟩] (.task ⟨"a", 2⟩) =
          (.ok (), [.task ⟨"a", 1⟩] ++ [.task ⟨"a", 2⟩]) ∧
        (∀ lbl i, validateLabelError lbl = none →
          findByLabel [.task ⟨"a", 1⟩] lbl = some i →
          insertBeforeTask [.task ⟨"a", 1⟩] (.task ⟨"a", 2⟩) lbl =
              (.ok (), insertAt [.task ⟨"a", 1⟩] i (.task ⟨"a", 2⟩)) ∧
            insertAfterTask [.task ⟨"a", 1⟩] (.task ⟨"a", 2⟩) lbl =
              (.ok (), insertAt [.task ⟨"a", 1⟩] (i + 1) (.task ⟨"a", 2⟩)))) :=
  ⟨by decide, by decide, taskChain_insert_no_label_uniqueness_check [.task ⟨"a", 1⟩] ⟨"a", 2⟩⟩

/-- C9: the claim states that non-Task values are rejected with a descriptive
error and never added; the code's `#validateTask` tests
`(!task) instanceof Task`, which is false for every value, so it never
rejects anything: `addTask(42)` pushes `42` onto the chain and only then
throws a `TypeError` from `42.setChain`, leaving the invalid value in the
chain; `removeTask(42)` and the insert operations likewise fail with a
`TypeError`, not the descriptive instance error. -/
theorem taskChain_validateTask_never_rejects :
    (∀ v, validateTaskThrows v = false) ∧
      addTask [] (.num 42) = (.error .typeError, [.num 42]) ∧
      removeTask [] (.num 42) = (.error .typeError, []) ∧
      insertBeforeTask [.task ⟨"a", 1⟩] (.num 42) "a" =
        (.error .typeError, [.num 42, .task ⟨"a", 1⟩]) :=
  ⟨fun v => by cases v <;> rfl, rfl, rfl, rfl⟩

theorem chainRunAux_spec (V : Type) (ts : List (CTask V)) : ∀ ctx : Ctx V,
    (chainRunAux ts ctx).2.1 ≤ ts.length ∧
      (chainRunAux ts ctx).1.inputs = ctx.inputs ∧
      chainRunAux (ts.take (chainRunAux ts ctx).2.1) ctx = chainRunAux ts ctx ∧
      (chainRunAux ts ctx).1.steps.map Prod.fst =
        ctx.steps.map Prod.fst ++ (ts.take (chainRunAux ts ctx).2.1).map CTask.label ∧
      ((chainRunAux ts ctx).2.2 = false → (chainRunAux ts ctx).2.1 = ts.length) ∧
      ((chainRunAux ts ctx).2.2 = true → 1 ≤ (chainRunAux ts ctx).2.1 ∧
        ∃ t v, ts[(chainRunAux ts ctx).2.1 - 1]? = some t ∧
          (chainRunAux ts ctx).1.steps.getLast? = some (t.label, v)) := by
  induction ts with
  | nil =>
    intro ctx
    refine ⟨le_refl 0, rfl, rfl, by simp [chainRunAux], fun _ => rfl, fun h => by
      simp [chainRunAux] at h⟩
  | cons t rest ih =>
    intro ctx
    by_cases hab : (t.run ctx).2
    · have hred : chainRunAux (t :: rest) ctx =
          ({ ctx with steps := ctx.steps ++ [(t.label, (t.run ctx).1)] }, 1, true) := by
        simp [chainRunAux, hab]
      rw [hred]
      refine ⟨by simp, rfl, ?_, by simp, by simp, fun _ => ⟨le_refl 1, t, (t.run ctx).1, ?_, ?_⟩⟩
      · show chainRunAux ((t :: rest).take 1) ctx = _
        simp [chainRunAux, hab]
      · simp
      · simp
    · obtain ⟨cu, hcu⟩ : ∃ cu : Ctx V,
          (⟨ctx.inputs, ctx.steps ++ [(t.label, (t.run ctx).1)]⟩ : Ctx V) = cu := ⟨_, rfl⟩
      obtain ⟨ih1, ih2, ih3, ih4, ih5, ih6⟩ := ih cu
      have hcuin : cu.inputs = ctx.inputs := by rw [← hcu]
      have hcust : cu.steps = ctx.steps ++ [(t.label, (t.run ctx).1)] := by rw [← hcu]
      have hred : chainRunAux (t :: rest) ctx =
          ((chainRunAux rest cu).1, (chainRunAux rest cu).2.1 + 1,
            (chainRunAux rest cu).2.2) := by
        rw [← hcu]
        simp [chainRunAux, hab]
      rw [hred]
      refine ⟨?_, ?_, ?_, ?_, ?_, ?_⟩
      · show (chainRunAux rest cu).2.1 + 1 ≤ (t :: rest).length
        exact Nat.succ_le_succ ih1
      · show (chainRunAux rest cu).1.inputs = ctx.inputs
        rw [ih2, hcuin]
      · show chainRunAux (t :: rest.take (chainRunAux rest cu).2.1) ctx = _
        have hred2 : chainRunAux (t :: rest.take (chainRunAux rest cu).2.1) ctx =
            ((chainRunAux (rest.take (chainRunAux rest cu).2.1) cu).1,
              (chainRunAux (rest.take (chainRunAux rest cu).2.1) cu).2.1 + 1,
              (chainRunAux (rest.take (chainRunAux rest cu).2.1) cu).2.2) := by
          rw [← hcu]
          simp [chainRunAux, hab]
        rw [hred2, ih3]
      · show (chainRunAux rest cu).1.steps.map Prod.fst =
          ctx.steps.map Prod.fst ++
            (t :: rest.take (chainRunAux rest cu).2.1).map CTask.label
        rw [ih4, hcust]
        simp
      · intro hfalse
        show (chainRunAux rest cu).2.1 + 1 = (t :: rest).length
        rw [ih5 hfalse]
        simp
      · intro htrue
        obtain ⟨hpos, t', v', hget, hlast⟩ := ih6 htrue
        refine ⟨Nat.le_add_left 1 _, t', v', ?_, hlast⟩
        show (t :: rest)[(chainRunAux rest cu).2.1 + 1 - 1]? = some t'
        have hidx : (chainRunAux rest cu).2.1 + 1 - 1 = ((chainRunAux rest cu).2.1 - 1) + 1 := by
          omega
        rw [hidx, List.getElem?_cons_succ]
        exact hget

/-- C2: for every `TaskChain.run` invocation over any task sequence and any
inputs, exactly an initial segment of the chain executes; each executed
task's result is recorded into `context.steps` under its label (the steps
labels are exactly the executed prefix's labels, in execution order) before
the abort flag is checked; if the run stops early the abort flag was set at
that check, the aborting task's own record is the last entry of `steps`, and
no later task executes nor (for a label not shared with the executed prefix)
appears in `steps`; a run whose abort flag is never set executes every task. -/
theorem taskChain_run_records_then_checks_abort (V : Type) (inputs : List (String × V))
    (ts : List (CTask V)) (ctx : Ctx V) (k : Nat) (ab : Bool)
    (hrun : chainRun ts inputs = (ctx, k, ab)) :
    k ≤ ts.length ∧ ctx.inputs = inputs ∧
      chainRun (ts.take k) inputs = (ctx, k, ab) ∧
      ctx.steps.map Prod.fst = (ts.take k).map CTask.label ∧
      (ab = false → k = ts.length) ∧
      (k < ts.length → ab = true) ∧
      (ab = true → 1 ≤ k ∧ ∃ t v, ts[k - 1]? = some t ∧
        ctx.steps.getLast? = some (t.label, v)) ∧
      (∀ t' ∈ ts.drop k, t'.label ∉ (ts.take k).map CTask.label →
        t'.label ∉ ctx.steps.map Prod.fst) := by
  obtain ⟨h1, h2, h3, h4, h5, h6⟩ := chainRunAux_spec V ts ⟨inputs, []⟩
  rw [chainRun] at hrun
  rw [hrun] at h1 h2 h3 h4 h5 h6
  have h4' : ctx.steps.map Prod.fst = (ts.take k).map CTask.label := h4
  have h5' : ab = false → k = ts.length := h5
  refine ⟨h1, h2, h3, h4', h5', ?_, h6, ?_⟩
  · intro hlt
    by_contra hne
    have hab : ab = false := by
      cases ab
      · rfl
      · exact absurd rfl hne
    have hk : k = ts.length := h5' hab
    omega
  · intro t' _ hfresh
    rw [h4']
    exact hfresh

theorem taskChain_run_abort_witness :
    chainRun
        [⟨"t1", fun _ => (1, false)⟩, ⟨"t2", fun _ => (2, true)⟩,
          ⟨"t3", fun _ => (3, false)⟩]
        ([] : List (String × Nat)) =
      (⟨[], [("t1", 1), ("t2", 2)]⟩, 2, true) ∧
      "t3" ∉ ((chainRun
        [⟨"t1", fun _ => (1, false)⟩, ⟨"t2", fun _ => (2, true)⟩,
          ⟨"t3", fun _ => (3, false)⟩]
        ([] : List (String × Nat))).1.steps.map Prod.fst) := by
  have hrun : chainRun
      [⟨"t1", fun _ => (1, false)⟩, ⟨"t2", fun _ => (2, true)⟩,
        ⟨"t3", fun _ => (3, false)⟩]
      ([] : List (String × Nat)) =
      (⟨[], [("t1", 1), ("t2", 2)]⟩, 2, true) := rfl
  have h := taskChain_run_records_then_checks_abort Nat []
    [⟨"t1", fun _ => (1, false)⟩, ⟨"t2", fun _ => (2, true)⟩, ⟨"t3", fun _ => (3, false)⟩]
    ⟨[], [("t1", 1), ("t2", 2)]⟩ 2 true hrun
  refine ⟨hrun, ?_⟩
  rw [hrun]
  exact h.2.2.2.2.2.2.2 ⟨"t3", fun _ => (3, false)⟩ (List.mem_singleton.mpr rfl) (by decide)

theorem taskErrorReturn_attached (errObs : List (Option Bool)) (f : Bool) (er : JSError ε)
    (α : Type) :
    taskErrorReturn errObs (some f) er α =
      .ok ((false, .inr er), if resolveStop errObs true then some true else some f) := by
  rw [taskErrorReturn]
  by_cases h : resolveStop errObs true <;> simp [h]

theorem taskErrorReturn_detached_default (er : JSError ε) (α : Type) :
    taskErrorReturn ([] : List (Option Bool)) none er α = .error () := rfl

theorem taskRunAux_attached (action : Nat → Except ε α) (stop : JSError ε → Bool × JSError ε)
    (retries interval : Nat) (succObs errObs : List (Option Bool)) (f : Bool) :
    ∀ fuel attempt ds r k ds', retries + 1 - attempt ≤ fuel →
      taskRunAux action stop retries interval succObs errObs (some f) attempt ds =
        some (r, k, ds') →
      (∃ a, r = .ok ((true, .inl a),
          if resolveStop succObs false then some true else some f)) ∨
        (∃ er, r = .ok ((false, .inr er),
          if resolveStop errObs true then some true else some f)) := by
  intro fuel
  induction fuel with
  | zero =>
    intro attempt ds r k ds' hfu h
    rw [taskRunAux, dif_pos (by omega)] at h
    exact absurd h (by simp)
  | succ fuel ih =>
    intro attempt ds r k ds' hfu h
    rw [taskRunAux] at h
    by_cases hra : retries < attempt
    · rw [dif_pos hra] at h
      exact absurd h (by simp)
    · rw [dif_neg hra] at h
      cases hact : action attempt with
      | ok a =>
        rw [hact] at h
        by_cases hsucc : resolveStop succObs false
        · simp only [hsucc, if_true, Option.some.injEq, Prod.mk.injEq] at h
          exact Or.inl ⟨a, by simp [hsucc, ← h.1]⟩
        · simp only [hsucc, if_false, Bool.false_eq_true, Option.some.injEq,
            Prod.mk.injEq] at h
          exact Or.inl ⟨a, by simp [hsucc, ← h.1]⟩
      | error e =>
        rw [hact] at h
        simp only at h
        by_cases hp : (stop (.user e)).1
        · rw [if_pos hp] at h
          simp only [Option.some.injEq, Prod.mk.injEq] at h
          refine Or.inr ⟨(stop (.user e)).2, ?_⟩
          rw [← h.1, taskErrorReturn_attached]
        · rw [if_neg hp] at h
          by_cases hend : retries ≤ attempt
          · rw [if_pos hend] at h
            simp only [Option.some.injEq, Prod.mk.injEq] at h
            refine Or.inr ⟨.exhausted retries, ?_⟩
            rw [← h.1, taskErrorReturn_attached]
          · rw [if_neg hend] at h
            exact ih (attempt + 1) (ds ++ [interval * 2 ^ (attempt - 1)]) r k ds'
              (by omega) h

theorem taskRunAux_attached_fail (action : Nat → Except ε α)
    (stop : JSError ε → Bool × JSError ε) (retries interval : Nat)
    (succObs errObs : List (Option Bool)) (f : Bool) (e : Nat → ε)
    (hfail : ∀ i, action i = .error (e i)) :
    ∀ fuel attempt ds, retries + 1 - attempt ≤ fuel → attempt ≤ retries →
      ∃ er k ds', taskRunAux action stop retries interval succObs errObs (some f) attempt ds =
        some (.ok ((false, .inr er),
          if resolveStop errObs true then some true else some f), k, ds') := by
  intro fuel
  induction fuel with
  | zero => intro attempt ds hfu hat; omega
  | succ fuel ih =>
    intro attempt ds hfu hat
    rw [taskRunAux, dif_neg (by omega), hfail attempt]
    simp only
    by_cases hp : (stop (.user (e attempt))).1
    · rw [if_pos hp, taskErrorReturn_attached]
      exact ⟨(stop (.user (e attempt))).2, attempt, ds, rfl⟩
    · rw [if_neg hp]
      by_cases hend : retries ≤ attempt
      · rw [if_pos hend, taskErrorReturn_attached]
        exact ⟨.exhausted retries, attempt, ds, rfl⟩
      · rw [if_neg hend]
        exact ih (attempt + 1) (ds ++ [interval * 2 ^ (attempt - 1)]) (by omega) (by omega)

theorem taskRunAux_detached_default (action : Nat → Except ε α)
    (stop : JSError ε → Bool × JSError ε) (retries interval : Nat) :
    ∀ fuel attempt ds r k ds', retries + 1 - attempt ≤ fuel →
      taskRunAux action stop retries interval [] [] none attempt ds = some (r, k, ds') →
      r = .error () ∨ ∃ a, r = .ok ((true, .inl a), none) := by
  intro fuel
  induction fuel with
  | zero =>
    intro attempt ds r k ds' hfu h
    rw [taskRunAux, dif_pos (by omega)] at h
    exact absurd h (by simp)
  | succ fuel ih =>
    intro attempt ds r k ds' hfu h
    rw [taskRunAux] at h
    by_cases hra : retries < attempt
    · rw [dif_pos hra] at h
      exact absurd h (by simp)
    · rw [dif_neg hra] at h
      cases hact : action attempt with
      | ok a =>
        rw [hact] at h
        simp only [resolveStop, if_false, Bool.false_eq_true, Option.some.injEq,
          Prod.mk.injEq] at h
        exact Or.inr ⟨a, by rw [← h.1]⟩
      | error e =>
        rw [hact] at h
        simp only at h
        by_cases hp : (stop (.user e)).1
        · rw [if_pos hp, taskErrorReturn_detached_default] at h
          simp only [Option.some.injEq, Prod.mk.injEq] at h
          exact Or.inl h.1.symm
        · rw [if_neg hp] at h
          by_cases hend : retries ≤ attempt
          · rw [if_pos hend, taskErrorReturn_detached_default] at h
            simp only [Option.some.injEq, Prod.mk.injEq] at h
            exact Or.inl h.1.symm
          · rw [if_neg hend] at h
            exact ih (attempt + 1) (ds ++ [interval * 2 ^ (attempt - 1)]) r k ds'
              (by omega) h

theorem taskRunAux_detached_fail (action : Nat → Except ε α)
    (stop : JSError ε → Bool × JSError ε) (retries interval : Nat) (e : Nat → ε)
    (hfail : ∀ i, action i = .error (e i)) :
    ∀ fuel attempt ds, retries + 1 - attempt ≤ fuel → attempt ≤ retries →
      ∃ k ds', taskRunAux action stop retries interval [] [] none attempt ds =
        some (.error (), k, ds') := by
  intro fuel
  induction fuel with
  | zero => intro attempt ds hfu hat; omega
  | succ fuel ih =>
    intro attempt ds hfu hat
    rw [taskRunAux, dif_neg (by omega), hfail attempt]
    simp only
    by_cases hp : (stop (.user (e attempt))).1
    · rw [if_pos hp, taskErrorReturn_detached_default]
      exact ⟨attempt, ds, rfl⟩
    · rw [if_neg hp]
      by_cases hend : retries ≤ attempt
      · rw [if_pos hend, taskErrorReturn_detached_default]
        exact ⟨attempt, ds, rfl⟩
      · rw [if_neg hend]
        exact ih (attempt + 1) (ds ++ [interval * 2 ^ (attempt - 1)]) (by omega) (by omega)

/-- C3: for a Task attached to a chain, a terminal failure of `Task.run`
(stop-predicate triggered or retries exhausted, i.e. any return of the
`[false, error]` pair) leaves the chain's abort flag set to true before `run`
returns, unless an observer on the failure signal overrides the abort
decision, in which case the flag is left untouched; on an always-failing
action such a terminal failure actually occurs and returns with the flag
determined the same way; a terminal success leaves the flag untouched when no
success observer flips it; and with no registered observers the failure
signal's default resolves to abort while the success signal's default
resolves to no abort. -/
theorem task_run_failure_sets_abort_unless_overridden
    (action : Nat → Except ε α) (stop : JSError ε → Bool × JSError ε)
    (retries interval : Nat) (succObs errObs : List (Option Bool)) (f : Bool)
    (r : Except Unit ((Bool × (α ⊕ JSError ε)) × Option Bool)) (k : Nat) (ds : List Nat)
    (hrun : taskRun action stop retries interval succObs errObs (some f) = some (r, k, ds)) :
    (∀ er ch, r = .ok ((false, .inr er), ch) →
        (resolveStop errObs true = true → ch = some true) ∧
          (resolveStop errObs true = false → ch = some f)) ∧
      (∀ a ch, r = .ok ((true, .inl a), ch) → resolveStop succObs false = false →
        ch = some f) ∧
      (∀ (e : Nat → ε), (∀ i, action i = .error (e i)) → 1 ≤ retries →
        ∃ er k2 ds2, taskRun action stop retries interval succObs errObs (some f) =
          some (.ok ((false, .inr er),
            if resolveStop errObs true then some true else some f), k2, ds2)) ∧
      resolveStop [] true = true ∧ resolveStop [] false = false := by
  have hshape := taskRunAux_attached action stop retries interval succObs errObs f
    (retries + 1) 1 [] r k ds (by omega) hrun
  refine ⟨?_, ?_, ?_, rfl, rfl⟩
  · intro er ch hr
    cases hshape with
    | inl hs =>
      obtain ⟨a, ha⟩ := hs
      rw [hr] at ha
      simp at ha
    | inr hs =>
      obtain ⟨er2, he⟩ := hs
      rw [hr] at he
      simp only [Except.ok.injEq, Prod.mk.injEq, true_and] at he
      constructor
      · intro htrue
        rw [he.2, if_pos htrue]
      · intro hfalse
        rw [he.2, if_neg (by simp [hfalse])]
  · intro a ch hr hsucc
    cases hshape with
    | inl hs =>
      obtain ⟨a2, ha⟩ := hs
      rw [hr] at ha
      simp only [Except.ok.injEq, Prod.mk.injEq, true_and] at ha
      rw [ha.2, if_neg (by simp [hsucc])]
    | inr hs =>
      obtain ⟨er2, he⟩ := hs
      rw [hr] at he
      simp at he
  · intro e hfail hre
    obtain ⟨er, k2, ds2, hrun2⟩ := taskRunAux_attached_fail action stop retries interval
      succObs errObs f e hfail (retries + 1) 1 [] (by omega) hre
    exact ⟨er, k2, ds2, hrun2⟩

theorem task_run_failure_sets_abort_witness :
    taskRun (fun _ => (Except.error 0 : Except Nat Nat))
        (fun er => (false, er)) 1 500 [] [] (some false) =
      some (.ok ((false, .inr (.exhausted 1)), some true), 1, []) ∧
      (some true : Option Bool) = some true := by
  have hrun : taskRun (fun _ => (Except.error 0 : Except Nat Nat))
      (fun er => (false, er)) 1 500 [] [] (some false) =
      some (.ok ((false, .inr (.exhausted 1)), some true), 1, []) := by
    simp [taskRun, taskRunAux, taskErrorReturn, resolveStop]
  have h := task_run_failure_sets_abort_unless_overridden
    (fun _ => (Except.error 0 : Except Nat Nat)) (fun er => (false, er)) 1 500 [] [] false
    (.ok ((false, .inr (.exhausted 1)), some true)) 1 [] hrun
  exact ⟨hrun, (h.1 (.exhausted 1) (some true) rfl).1 rfl⟩

/-- C10: for a Task whose chain back-reference is null and with no registered
observers, `Task.run` never returns the documented `[false, error]` pair: every
returning execution either returns a success pair or propagates the
`TypeError` raised by the failure dispatch calling `breakChain` on the null
back-reference; in particular an always-failing action makes `run` raise the
`TypeError`, while a first-attempt success returns `[true, result]` normally
with the back-reference untouched. -/
theorem task_run_null_chain_failure_raises
    (action : Nat → Except ε α) (stop : JSError ε → Bool × JSError ε)
    (retries interval : Nat) (hre : 1 ≤ retries) :
    (∀ r k ds, taskRun action stop retries interval [] [] none = some (r, k, ds) →
        r = .error () ∨ ∃ a, r = .ok ((true, .inl a), none)) ∧
      (∀ (e : Nat → ε), (∀ i, action i = .error (e i)) →
        ∃ k ds, taskRun action stop retries interval [] [] none =
          some (.error (), k, ds)) ∧
      (∀ a, action 1 = .ok a →
        taskRun action stop retries interval [] [] none =
          some (.ok ((true, .inl a), none), 1, [])) := by
  refine ⟨?_, ?_, ?_⟩
  · intro r k ds h
    exact taskRunAux_detached_default action stop retries interval (retries + 1) 1 [] r k ds
      (by omega) h
  · intro e hfail
    obtain ⟨k, ds, h⟩ := taskRunAux_detached_fail action stop retries interval e hfail
      (retries + 1) 1 [] (by omega) hre
    exact ⟨k, ds, h⟩
  · intro a ha
    rw [taskRun, taskRunAux, dif_neg (by omega), ha]
    simp [resolveStop]

theorem task_run_null_chain_witness :
    (1 : Nat) ≤ 1 ∧
      (∃ k ds, taskRun (fun _ => (Except.error 0 : Except Nat Nat))
        (fun er => (false, er)) 1 500 [] [] none = some (.error (), k, ds)) ∧
      taskRun (fun _ => (Except.ok 9 : Except Nat Nat))
        (fun er => (false, er)) 1 500 [] [] none =
          some (.ok ((true, .inl 9), none), 1, []) := by
  refine ⟨by decide, ?_, ?_⟩
  · exact (task_run_null_chain_failure_raises
      (fun _ => (Except.error 0 : Except Nat Nat)) (fun er => (false, er)) 1 500
      (by decide)).2.1 (fun _ => 0) (fun i => rfl)
  · exact (task_run_null_chain_failure_raises
      (fun _ => (Except.ok 9 : Except Nat Nat)) (fun er => (false, er)) 1 500
      (by decide)).2.2 9 rfl

end OctoSpec
